import Mathlib

/-!
Verification development for the gowut `gwu` widget core
(`chkbox_radio.go`, `tabpanel.go`, `textbox_pwbox.go`).

The Go code is shallowly embedded: each widget's mutable fields become a
Lean structure, each method a pure function on that structure.  Buttons of
a group are identified by their position in the group's `states` list
(standing for Go's pointer identity), components of a panel by natural
number ids.  Style-class bags and the panel child-list primitives
(`Add`/`Remove`/`CompAt`/`CompIdx`/`Clear` of `panelImpl`, the
`AddClass`/`RemoveClass`/`SetClass` of a style) live in repository files
outside the examined set, so they are modelled from the spec where noted.
-/

namespace Gowut

/-! ## Group of state buttons (`chkbox_radio.go`)

`GroupState` bundles one `radioGroupImpl` with the `state` fields of all
`stateButtonImpl`s that were created with this group (`NewRadioButton`,
initial state `false`).  Member `i`'s Go field `c.state` is `states[i]`;
`selected`/`prevSelected` mirror the two fields of `radioGroupImpl`.
`Equals` on components is index equality. -/

structure GroupState where
  states : List Bool
  selected : Option Nat
  prevSelected : Option Nat
deriving DecidableEq, Repr

/-- `radioGroupImpl.setSelected` (chkbox_radio.go:195-198). -/
def GroupState.setSel (g : GroupState) (sel : Option Nat) : GroupState :=
  { g with prevSelected := g.selected, selected := sel }

/-- `stateButtonImpl.setStateProp` (chkbox_radio.go:241-243): set the
state field without group management. -/
def GroupState.setStateProp (g : GroupState) (i : Nat) (b : Bool) : GroupState :=
  { g with states := g.states.set i b }

/-- `stateButtonImpl.State` (chkbox_radio.go:200-202) of member `i`. -/
def GroupState.btnState (g : GroupState) (i : Nat) : Bool :=
  g.states.getD i false

/-- `stateButtonImpl.SetState` (chkbox_radio.go:204-235) on member `i`,
for a button whose `group` is non-nil. -/
def GroupState.SetState (g : GroupState) (i : Nat) (state : Bool) : GroupState :=
  if g.btnState i = state then g
  else
    let g1 :=
      match g.selected with
      | none => if state then g.setSel (some i) else g
      | some sel =>
        if state then
          if sel = i then g
          else (g.setStateProp sel false).setSel (some i)
        else g.setSel none
    g1.setStateProp i state

/-- A fresh group with `n` members, each made by `NewRadioButton`
(initial state `false`, chkbox_radio.go:167-181), group fields from
`NewRadioGroup` (chkbox_radio.go:133-136). -/
def initGroup (n : Nat) : GroupState :=
  ⟨List.replicate n false, none, none⟩

/-- Run a sequence of `SetState` calls: each pair `(i, b)` is member `i`
being set to `b`. -/
def runOps (g : GroupState) (ops : List (Nat × Bool)) : GroupState :=
  ops.foldl (fun g p => g.SetState p.1 p.2) g

/-- The group invariant: `selected` names a member in range whose state
is `true` and every other member's state is `false`; or no member is
selected and every state is `false`. -/
def GroupState.inv (g : GroupState) : Prop :=
  match g.selected with
  | none => ∀ j < g.states.length, g.states.getD j false = false
  | some s => s < g.states.length ∧ g.states.getD s false = true ∧
      ∀ j < g.states.length, j ≠ s → g.states.getD j false = false

instance (g : GroupState) : Decidable g.inv := by
  unfold GroupState.inv
  cases g.selected <;> infer_instance

/-- `stateButtonImpl.SetState` for a button with `group == nil`
(a `CheckBox`, chkbox_radio.go:204-235): the group-management block is
skipped and only the state field is written. -/
def checkBoxSetState (st : Bool) (state : Bool) : Bool :=
  if st = state then st else state

/-! ## SwitchButton (`chkbox_radio.go`)

The two sub-buttons only matter through their style class, so a
`SwitchState` keeps the composite `state` and each sub-button's class.
Modelled from the spec: the style's `SetClass` (style code is outside the
examined files) replaces the sub-button's class outright — "the two
sub-widgets' visual/style state is always a pure function of `state`". -/

structure SwitchState where
  state : Bool
  onClass : String
  offClass : String
deriving DecidableEq, Repr

/-- `switchButtonImpl.SetState` (chkbox_radio.go:302-317). -/
def SwitchState.SetState (c : SwitchState) (state : Bool) : SwitchState :=
  if c.state = state then c
  else if state then
    ⟨state, "gwu-SwitchButton-On-Active", "gwu-SwitchButton-Off-Inactive"⟩
  else
    ⟨state, "gwu-SwitchButton-On-Inactive", "gwu-SwitchButton-Off-Active"⟩

/-- `NewSwitchButton` (chkbox_radio.go:149-165): the struct is built with
state `true` so that the terminal `SetState(false)` takes the
state-changing path and installs the OFF classes.  The sub-buttons'
classes before that call never survive it; `"gwu-Button"` stands for
whatever `newButtonImpl` put there. -/
def newSwitchButton : SwitchState :=
  SwitchState.SetState ⟨true, "gwu-Button", "gwu-Button"⟩ false

/-- The SwitchButton style invariant: each sub-button's class is the pure
function of `state` installed by `SetState`. -/
def switchInv (c : SwitchState) : Prop :=
  c.onClass = (if c.state then "gwu-SwitchButton-On-Active"
               else "gwu-SwitchButton-On-Inactive") ∧
  c.offClass = (if c.state then "gwu-SwitchButton-Off-Inactive"
                else "gwu-SwitchButton-Off-Active")

instance (c : SwitchState) : Decidable (switchInv c) := by
  unfold switchInv
  infer_instance

/-! ## Inbound event preprocessing (`chkbox_radio.go`, `textbox_pwbox.go`)

An inbound request's values for `_PARAM_COMP_VALUE` are embedded as
`Option (List String)`: `none` when the parameter is absent from the
form, `some vs` when present with value list `vs`. -/

/-- Go's `http.Request.FormValue`: the first value for the key, or `""`
when the key is absent or has no values. -/
def formValue (form : Option (List String)) : String :=
  match form with
  | some (v :: _) => v
  | _ => ""

/-- Go's `strconv.ParseBool`: accepts exactly
1, t, T, TRUE, true, True, 0, f, F, FALSE, false, False. -/
def parseBool (s : String) : Option Bool :=
  if s = "1" ∨ s = "t" ∨ s = "T" ∨ s = "TRUE" ∨ s = "true" ∨ s = "True" then
    some true
  else if s = "0" ∨ s = "f" ∨ s = "F" ∨ s = "FALSE" ∨ s = "false" ∨ s = "False" then
    some false
  else none

/-- `stateButtonImpl.preprocessEvent` (chkbox_radio.go:245-256) for a
grouped button (RadioButton) `i`. -/
def GroupState.preprocessEvent (g : GroupState) (i : Nat)
    (form : Option (List String)) : GroupState :=
  let value := formValue form
  if value.length = 0 then g
  else
    match parseBool value with
    | some v => g.SetState i v
    | none => g

/-- `stateButtonImpl.preprocessEvent` (chkbox_radio.go:245-256) for an
ungrouped button (CheckBox). -/
def checkBoxPreprocessEvent (st : Bool) (form : Option (List String)) : Bool :=
  let value := formValue form
  if value.length = 0 then st
  else
    match parseBool value with
    | some v => checkBoxSetState st v
    | none => st

/-- `switchButtonImpl.preprocessEvent` (chkbox_radio.go:331-344). -/
def SwitchState.preprocessEvent (c : SwitchState)
    (form : Option (List String)) : SwitchState :=
  let value := formValue form
  if value.length = 0 then c
  else
    match parseBool value with
    | some v => c.SetState v
    | none => c

/-- `textBoxImpl.preprocessEvent` (textbox_pwbox.go:161-174), shared by
TextBox and PasswBox: `text` is the current text, the result the text
after preprocessing. -/
def textBoxPreprocessEvent (text : String) (form : Option (List String)) : String :=
  let value := formValue form
  if 0 < value.length then value
  else
    match form with
    | some (v :: _) => v
    | some [] => text
    | none => text

/-! ## TabPanel (`tabpanel.go`)

A tab component carries its id and its style-class bag (the tab-bar
claims are about the `gwu-TabBar-Selected` / `gwu-TabBar-NotSelected`
classes toggled on tabs); content components are bare ids.  The
`panelImpl` child-list primitives are modelled from the spec §4.1: `add`
appends, `childAt` is positional lookup, `indexOf` finds by identity,
`remove` deletes by identity; the style bag (spec §6) is a class set, so
`AddClass` inserts if absent and `RemoveClass` deletes. -/

structure TabComp where
  id : Nat
  classes : List String
deriving DecidableEq, Repr

def TabComp.addClass (t : TabComp) (cls : String) : TabComp :=
  if cls ∈ t.classes then t else { t with classes := t.classes ++ [cls] }

def TabComp.removeClass (t : TabComp) (cls : String) : TabComp :=
  { t with classes := t.classes.filter (· ≠ cls) }

/-- Apply `f` to the element at position `i`, when there is one. -/
def modifyAt (l : List TabComp) (i : Nat) (f : TabComp → TabComp) : List TabComp :=
  match l[i]? with
  | some t => l.set i (f t)
  | none => l

/-- The TabPanel state: `tabBar` is the internal tab bar's child list,
`comps` the panel's own (content) child list, `selected` the selected
tab index (`int` in Go). -/
structure TabPanelState where
  tabBar : List TabComp
  comps : List Nat
  selected : Int
deriving DecidableEq, Repr

/-- `tabPanelImpl.SetSelected` (tabpanel.go:273-293).  The deselect step
restyles the tab at the old index, the select step the tab at the new
one. -/
def TabPanelState.SetSelected (p : TabPanelState) (idx : Int) : TabPanelState :=
  if (p.comps.length : Int) ≤ idx then p
  else
    let tb1 :=
      if 0 ≤ p.selected then
        modifyAt p.tabBar p.selected.toNat
          (fun t => (t.removeClass "gwu-TabBar-Selected").addClass "gwu-TabBar-NotSelected")
      else p.tabBar
    let tb2 :=
      if 0 ≤ idx then
        modifyAt tb1 idx.toNat
          (fun t => (t.removeClass "gwu-TabBar-NotSelected").addClass "gwu-TabBar-Selected")
      else tb1
    { tabBar := tb2, comps := p.comps, selected := idx }

/-- `tabPanelImpl.Add` (tabpanel.go:249-263): append the tab (restyled
"not selected") to the tab bar and the content to the panel; auto-select
index 0 when this is the first pair.  The click handler attached there
only runs on click events, outside these claims. -/
def TabPanelState.Add (p : TabPanelState) (tab : TabComp) (content : Nat) : TabPanelState :=
  let p1 : TabPanelState :=
    ⟨p.tabBar ++ [tab.addClass "gwu-TabBar-NotSelected"], p.comps ++ [content], p.selected⟩
  if p1.comps.length = 1 then p1.SetSelected 0 else p1

/-- The shared tail of `tabPanelImpl.Remove` (tabpanel.go:159-175) once
the pair's index `i` is known: erase position `i` from both lists, then
adjust the selected index. -/
def TabPanelState.removeIdx (p : TabPanelState) (i : Nat) : TabPanelState :=
  let p1 : TabPanelState := ⟨p.tabBar.eraseIdx i, p.comps.eraseIdx i, p.selected⟩
  if (i : Int) < p.selected then { p1 with selected := p1.selected - 1 }
  else if (i : Int) = p.selected then
    if (i : Int) < (p1.comps.length : Int) then p1.SetSelected i
    else if 0 < i then p1.SetSelected ((i : Int) - 1)
    else p1.SetSelected (-1)
  else p1

/-- `tabPanelImpl.Remove` (tabpanel.go:146-176): look the component up
among the contents, then among the tabs (in the latter case Go re-enters
`Remove` with the content at the tab's index, which resolves it by
identity in the content list). -/
def TabPanelState.Remove (p : TabPanelState) (c2 : Nat) : TabPanelState × Bool :=
  match p.comps.findIdx? (· == c2) with
  | some i => (p.removeIdx i, true)
  | none =>
    match p.tabBar.findIdx? (fun t => t.id == c2) with
    | none => (p, false)
    | some i =>
      match p.comps[i]? with
      | none => (p, false)
      | some content =>
        match p.comps.findIdx? (· == content) with
        | some j => (p.removeIdx j, true)
        | none => (p, false)

/-- `tabBarImpl.Remove` (tabpanel.go:34-50) for a tab bar whose parent is
its TabPanel (as wired by `NewTabPanel`): resolve the tab's index, then
delegate to the panel's `Remove` with the content at that index. -/
def TabPanelState.tabBarRemove (p : TabPanelState) (c2 : Nat) : TabPanelState × Bool :=
  match p.tabBar.findIdx? (fun t => t.id == c2) with
  | none => (p, false)
  | some i =>
    match p.comps[i]? with
    | none => (p, false)
    | some content => p.Remove content

/-- `tabPanelImpl.Clear` (tabpanel.go:193-198). -/
def TabPanelState.Clear (p : TabPanelState) : TabPanelState :=
  TabPanelState.SetSelected ⟨[], [], p.selected⟩ (-1)

/-- `NewTabPanel` (tabpanel.go:134-144): empty lists, `selected = -1`. -/
def initTabPanel : TabPanelState :=
  ⟨[], [], -1⟩

/-- One public TabPanel structural operation. -/
inductive TabOp where
  | add (tab : TabComp) (content : Nat)
  | rem (c2 : Nat)
  | clear
deriving DecidableEq, Repr

def applyTabOp (p : TabPanelState) : TabOp → TabPanelState
  | .add tab content => p.Add tab content
  | .rem c2 => (p.Remove c2).1
  | .clear => p.Clear

def runTabOps (p : TabPanelState) (ops : List TabOp) : TabPanelState :=
  ops.foldl applyTabOp p

/-- The (tab id, content id) pairs introduced by the `add` operations of
a sequence. -/
def addedPairs (ops : List TabOp) : List (Nat × Nat) :=
  ops.filterMap fun op =>
    match op with
    | .add tab content => some (tab.id, content)
    | _ => none

/-- The (tab id, content id) pairs sitting at equal positions of the two
child lists. -/
def idPairs (p : TabPanelState) : List (Nat × Nat) :=
  (p.tabBar.map TabComp.id).zip p.comps

/-- Alignment invariant: equally long child lists, and every positional
pair drawn from the allowed set `P`. -/
def pairsInv (p : TabPanelState) (P : List (Nat × Nat)) : Prop :=
  p.tabBar.length = p.comps.length ∧ ∀ q ∈ idPairs p, q ∈ P

/-! ## Helper lemmas -/

theorem getD_set_self (l : List Bool) (i : Nat) (b : Bool) (h : i < l.length) :
    (l.set i b).getD i false = b := by
  simp [List.getD_eq_getElem?_getD]
  rw [List.getElem?_set]
  simp [h]

theorem getD_set_ne (l : List Bool) (i j : Nat) (b : Bool) (h : j ≠ i) :
    (l.set i b).getD j false = l.getD j false := by
  simp [List.getD_eq_getElem?_getD]
  rw [List.getElem?_set]
  simp [Ne.symm h]

theorem SetState_stay (g : GroupState) (i : Nat) (b : Bool) (h : g.btnState i = b) :
    g.SetState i b = g := by
  simp [GroupState.SetState, h]

theorem SetState_none_true (g : GroupState) (i : Nat) (hsel : g.selected = none)
    (h : g.btnState i = false) :
    g.SetState i true = ⟨g.states.set i true, some i, none⟩ := by
  simp [GroupState.SetState, h, hsel, GroupState.setSel, GroupState.setStateProp]

theorem SetState_none_false (g : GroupState) (i : Nat) (hsel : g.selected = none)
    (h : g.btnState i = true) :
    g.SetState i false = ⟨g.states.set i false, none, g.prevSelected⟩ := by
  simp [GroupState.SetState, h, hsel, GroupState.setSel, GroupState.setStateProp]

theorem SetState_some_true_ne (g : GroupState) (i s : Nat) (hsel : g.selected = some s)
    (hne : s ≠ i) (h : g.btnState i = false) :
    g.SetState i true = ⟨(g.states.set s false).set i true, some i, some s⟩ := by
  simp [GroupState.SetState, h, hsel, hne, GroupState.setSel, GroupState.setStateProp]

theorem SetState_some_true_eq (g : GroupState) (i : Nat) (hsel : g.selected = some i)
    (h : g.btnState i = false) :
    g.SetState i true = ⟨g.states.set i true, some i, g.prevSelected⟩ := by
  simp [GroupState.SetState, h, hsel, GroupState.setSel, GroupState.setStateProp]

theorem SetState_some_false (g : GroupState) (i s : Nat) (hsel : g.selected = some s)
    (h : g.btnState i = true) :
    g.SetState i false = ⟨g.states.set i false, none, some s⟩ := by
  simp [GroupState.SetState, h, hsel, GroupState.setSel, GroupState.setStateProp]

theorem setState_length (g : GroupState) (i : Nat) (b : Bool) :
    (g.SetState i b).states.length = g.states.length := by
  unfold GroupState.SetState
  split
  · rfl
  · cases g.selected <;>
      simp only [GroupState.setStateProp, GroupState.setSel] <;>
      split <;> (try split) <;> simp [List.length_set]

theorem inv_preserved (g : GroupState) (i : Nat) (b : Bool)
    (hinv : g.inv) (hi : i < g.states.length) : (g.SetState i b).inv := by
  by_cases hguard : g.btnState i = b
  · rw [SetState_stay g i b hguard]
    exact hinv
  · cases hsel : g.selected with
    | none =>
      have hall : ∀ j < g.states.length, g.states.getD j false = false := by
        unfold GroupState.inv at hinv
        rw [hsel] at hinv
        exact hinv
      have hifalse : g.btnState i = false := hall i hi
      have hb : b = true := by
        cases b
        · exact absurd hifalse hguard
        · rfl
      subst hb
      rw [SetState_none_true g i hsel hifalse]
      refine ⟨by simpa using hi, getD_set_self _ _ _ hi, ?_⟩
      intro j hj hji
      rw [getD_set_ne _ _ _ _ hji]
      exact hall j (by simpa using hj)
    | some s =>
      unfold GroupState.inv at hinv
      rw [hsel] at hinv
      obtain ⟨hslen, hstrue, hothers⟩ := hinv
      cases b with
      | true =>
        have hifalse : g.btnState i = false := by
          rcases eq_or_ne i s with rfl | hne
          · exact absurd hstrue hguard
          · exact hothers i hi hne
        have hne : s ≠ i := by
          intro h
          subst h
          rw [GroupState.btnState, hstrue] at hifalse
          exact Bool.noConfusion hifalse
        rw [SetState_some_true_ne g i s hsel hne hifalse]
        refine ⟨by simpa using hi, getD_set_self _ _ _ (by simpa using hi), ?_⟩
        intro j hj hji
        rw [getD_set_ne _ _ _ _ hji]
        rcases eq_or_ne j s with rfl | hjs
        · exact getD_set_self _ _ _ hslen
        · rw [getD_set_ne _ _ _ _ hjs]
          exact hothers j (by simpa using hj) hjs
      | false =>
        have hitrue : g.btnState i = true := by
          cases hb : g.states.getD i false
          · exact absurd hb hguard
          · exact hb
        rw [SetState_some_false g i s hsel hitrue]
        intro j hj
        rcases eq_or_ne j i with rfl | hji
        · exact getD_set_self _ _ _ hi
        · rw [getD_set_ne _ _ _ _ hji]
          have heq : i = s := by
            by_contra hne
            have hx : g.states.getD i false = true := hitrue
            rw [hothers i hi hne] at hx
            exact Bool.noConfusion hx
          exact hothers j (by simpa using hj) (heq ▸ hji)

theorem initGroup_inv (n : Nat) : (initGroup n).inv := by
  intro j hj
  simp [initGroup]

theorem runOps_inv (g : GroupState) (ops : List (Nat × Bool)) (hg : g.inv)
    (hops : ∀ p ∈ ops, p.1 < g.states.length) : (runOps g ops).inv := by
  induction ops generalizing g with
  | nil => exact hg
  | cons p rest ih =>
    apply ih
    · exact inv_preserved _ _ _ hg (hops p (List.mem_cons_self p rest))
    · intro q hq
      rw [setState_length]
      exact hops q (List.mem_cons_of_mem p hq)

theorem runOps_length (g : GroupState) (ops : List (Nat × Bool)) :
    (runOps g ops).states.length = g.states.length := by
  induction ops generalizing g with
  | nil => rfl
  | cons p rest ih =>
    rw [show runOps g (p :: rest) = runOps (g.SetState p.1 p.2) rest from rfl,
      ih, setState_length]

/-! ## Claim theorems -/

/-- C1.  For every sequence of `SetState` calls on radio buttons of one
group (all created by `NewRadioButton` with initial state `false`), after
the calls at most one member has `State() = true`, and a member with
`State() = true` is exactly the one the group's `Selected()` returns.
As any prefix of a call sequence is itself a call sequence, this holds
after each call of the sequence. -/
theorem group_exclusive_selected (n : Nat) (ops : List (Nat × Bool))
    (hops : ∀ p ∈ ops, p.1 < n) :
    (∀ j k, j < n → k < n → (runOps (initGroup n) ops).btnState j = true →
      (runOps (initGroup n) ops).btnState k = true → j = k) ∧
    (∀ j, j < n → (runOps (initGroup n) ops).btnState j = true →
      (runOps (initGroup n) ops).selected = some j) := by
  have hlen : (runOps (initGroup n) ops).states.length = n := by
    rw [runOps_length]
    simp [initGroup]
  have hinv : (runOps (initGroup n) ops).inv :=
    runOps_inv _ _ (initGroup_inv n) (by simpa [initGroup] using hops)
  unfold GroupState.inv at hinv
  constructor
  · intro j k hj hk hjt hkt
    cases hsel : (runOps (initGroup n) ops).selected with
    | none =>
      rw [hsel] at hinv
      have := hinv j (by rw [hlen]; exact hj)
      rw [GroupState.btnState] at hjt
      rw [this] at hjt
      exact Bool.noConfusion hjt
    | some s =>
      rw [hsel] at hinv
      obtain ⟨hs, hst, hoth⟩ := hinv
      have hjs : j = s := by
        by_contra hne
        have := hoth j (by rw [hlen]; exact hj) hne
        rw [GroupState.btnState, this] at hjt
        exact Bool.noConfusion hjt
      have hks : k = s := by
        by_contra hne
        have := hoth k (by rw [hlen]; exact hk) hne
        rw [GroupState.btnState, this] at hkt
        exact Bool.noConfusion hkt
      rw [hjs, hks]
  · intro j hj hjt
    cases hsel : (runOps (initGroup n) ops).selected with
    | none =>
      rw [hsel] at hinv
      have := hinv j (by rw [hlen]; exact hj)
      rw [GroupState.btnState, this] at hjt
      exact Bool.noConfusion hjt
    | some s =>
      rw [hsel] at hinv
      obtain ⟨hs, hst, hoth⟩ := hinv
      congr
      by_contra hne
      have := hoth j (by rw [hlen]; exact hj) (by omega)
      rw [GroupState.btnState, this] at hjt
      exact Bool.noConfusion hjt

/-- Witness for C1: two buttons, select button 0. -/
theorem group_exclusive_selected_witness :
    (∀ j k, j < 2 → k < 2 → (runOps (initGroup 2) [(0, true)]).btnState j = true →
      (runOps (initGroup 2) [(0, true)]).btnState k = true → j = k) ∧
    (∀ j, j < 2 → (runOps (initGroup 2) [(0, true)]).btnState j = true →
      (runOps (initGroup 2) [(0, true)]).selected = some j) :=
  group_exclusive_selected 2 [(0, true)] (by decide)

/-- C6.  Whenever a member's `SetState` changes the group's selection,
`PrevSelected()` afterwards returns exactly what `Selected()` returned
before the call; and when the selection does not change, the single
history slot `prevSelected` is untouched. -/
theorem prevSelected_history (g : GroupState) (i : Nat) (b : Bool) :
    ((g.SetState i b).selected ≠ g.selected →
      (g.SetState i b).prevSelected = g.selected) ∧
    ((g.SetState i b).selected = g.selected →
      (g.SetState i b).prevSelected = g.prevSelected) := by
  by_cases hguard : g.btnState i = b
  · rw [SetState_stay g i b hguard]
    exact ⟨fun h => absurd rfl h, fun _ => rfl⟩
  · have hbtn : g.btnState i = !b := by
      cases hb : g.btnState i <;> cases b <;> simp_all
    cases hsel : g.selected with
    | none =>
      cases b with
      | true =>
        rw [SetState_none_true g i hsel (by simpa using hbtn)]
        simp
      | false =>
        rw [SetState_none_false g i hsel (by simpa using hbtn)]
        simp
    | some s =>
      cases b with
      | true =>
        rcases eq_or_ne s i with rfl | hne
        · rw [SetState_some_true_eq g s (by simpa using hsel) (by simpa using hbtn)]
          simp [hsel]
        · rw [SetState_some_true_ne g i s hsel hne (by simpa using hbtn)]
          refine ⟨fun _ => rfl, fun h => ?_⟩
          exact absurd (Option.some.inj h).symm hne
      | false =>
        rw [SetState_some_false g i s hsel (by simpa using hbtn)]
        simp [hsel]

/-- Witness for C6: selecting button 0 in a fresh pair moves the old
selection (none) into the history slot. -/
theorem prevSelected_history_witness :
    ((initGroup 2).SetState 0 true).prevSelected = (initGroup 2).selected :=
  (prevSelected_history (initGroup 2) 0 true).1 (by decide)

theorem string_length_zero {s : String} (h : s.length = 0) : s = "" := by
  cases s with
  | mk data =>
    cases data with
    | nil => rfl
    | cons a l => simp [String.length] at h

theorem parseBool_of_empty (form : Option (List String))
    (h : (formValue form).length = 0) : parseBool (formValue form) = none := by
  rw [string_length_zero h]
  rfl

/-- C9.  Calling `SetState(s)` when `State()` already equals `s` changes
nothing, for an ungrouped CheckBox, a grouped RadioButton (state,
`Selected()` and `PrevSelected()` all as before) and a SwitchButton
(state and both sub-button classes as before): `SetState` is idempotent. -/
theorem setState_noop_frame :
    (∀ st b, st = b → checkBoxSetState st b = st) ∧
    (∀ (g : GroupState) i b, g.btnState i = b → g.SetState i b = g) ∧
    (∀ (c : SwitchState) b, c.state = b → c.SetState b = c) := by
  refine ⟨fun st b h => by simp [checkBoxSetState, h],
    fun g i b h => SetState_stay g i b h,
    fun c b h => by simp [SwitchState.SetState, h]⟩

/-- Witness for C9, one instance per widget kind. -/
theorem setState_noop_frame_witness :
    checkBoxSetState true true = true ∧
    (initGroup 2).SetState 0 false = initGroup 2 ∧
    newSwitchButton.SetState false = newSwitchButton :=
  ⟨setState_noop_frame.1 true true rfl,
   setState_noop_frame.2.1 (initGroup 2) 0 false (by decide),
   setState_noop_frame.2.2 newSwitchButton false (by decide)⟩

/-- C5.  After construction and after every `SetState`, the two
sub-buttons' classes are the pure function of the state given by
`switchInv` (state `true`: On-Active / Off-Inactive; state `false`:
On-Inactive / Off-Active), and repeating the same `SetState` a second
time mutates nothing. -/
theorem switchButton_style_pure :
    switchInv newSwitchButton ∧
    (∀ (c : SwitchState) b, switchInv c → switchInv (c.SetState b)) ∧
    (∀ (c : SwitchState) b, (c.SetState b).SetState b = c.SetState b) := by
  refine ⟨by decide, fun c b h => ?_, fun c b => ?_⟩
  · by_cases hc : c.state = b
    · simpa [SwitchState.SetState, hc] using h
    · cases b <;> simp [SwitchState.SetState, hc, switchInv]
  · have h2 : (c.SetState b).state = b := by
      by_cases hc : c.state = b
      · simp [SwitchState.SetState, hc]
      · cases b <;> simp [SwitchState.SetState, hc]
    generalize hd : c.SetState b = d at h2 ⊢
    simp [SwitchState.SetState, h2]

/-- Witness for C5: the invariant survives a `SetState(true)` on a fresh
SwitchButton. -/
theorem switchButton_style_pure_witness :
    switchInv (newSwitchButton.SetState true) :=
  switchButton_style_pure.2.1 newSwitchButton true switchButton_style_pure.1

/-- C7.  For CheckBox, RadioButton and SwitchButton alike, event
preprocessing leaves the component exactly unchanged when the inbound
value is absent, empty or unparseable as a boolean (all three make
`parseBool (formValue form) = none`, since `parseBool "" = none`), and
acts exactly as `SetState v` when the value parses as `v`.  No failure
is reported: the embedded functions are total with no error outcome. -/
theorem preprocess_bool_lenient :
    (∀ (g : GroupState) i form,
      (parseBool (formValue form) = none → g.preprocessEvent i form = g) ∧
      (∀ v, parseBool (formValue form) = some v →
        g.preprocessEvent i form = g.SetState i v)) ∧
    (∀ st form,
      (parseBool (formValue form) = none → checkBoxPreprocessEvent st form = st) ∧
      (∀ v, parseBool (formValue form) = some v →
        checkBoxPreprocessEvent st form = checkBoxSetState st v)) ∧
    (∀ (c : SwitchState) form,
      (parseBool (formValue form) = none → c.preprocessEvent form = c) ∧
      (∀ v, parseBool (formValue form) = some v →
        c.preprocessEvent form = c.SetState v)) := by
  refine ⟨fun g i form => ⟨fun hnone => ?_, fun v hsome => ?_⟩,
    fun st form => ⟨fun hnone => ?_, fun v hsome => ?_⟩,
    fun c form => ⟨fun hnone => ?_, fun v hsome => ?_⟩⟩ <;>
    by_cases hlen : (formValue form).length = 0
  · simp [GroupState.preprocessEvent, hlen]
  · simp [GroupState.preprocessEvent, hlen, hnone]
  · rw [parseBool_of_empty form hlen] at hsome
    exact Option.noConfusion hsome
  · simp [GroupState.preprocessEvent, hlen, hsome]
  · simp [checkBoxPreprocessEvent, hlen]
  · simp [checkBoxPreprocessEvent, hlen, hnone]
  · rw [parseBool_of_empty form hlen] at hsome
    exact Option.noConfusion hsome
  · simp [checkBoxPreprocessEvent, hlen, hsome]
  · simp [SwitchState.preprocessEvent, hlen]
  · simp [SwitchState.preprocessEvent, hlen, hnone]
  · rw [parseBool_of_empty form hlen] at hsome
    exact Option.noConfusion hsome
  · simp [SwitchState.preprocessEvent, hlen, hsome]

/-- Witness for C7: an unparseable value is ignored, a parseable one acts
as `SetState`. -/
theorem preprocess_bool_lenient_witness :
    (initGroup 2).preprocessEvent 0 (some ["zzz"]) = initGroup 2 ∧
    (initGroup 2).preprocessEvent 0 (some ["true"]) = (initGroup 2).SetState 0 true ∧
    checkBoxPreprocessEvent false none = false ∧
    newSwitchButton.preprocessEvent (some [""]) = newSwitchButton :=
  ⟨(preprocess_bool_lenient.1 (initGroup 2) 0 (some ["zzz"])).1 (by decide),
   (preprocess_bool_lenient.1 (initGroup 2) 0 (some ["true"])).2 true (by decide),
   (preprocess_bool_lenient.2.1 false none).1 (by decide),
   (preprocess_bool_lenient.2.2 newSwitchButton (some [""])).1 (by decide)⟩

/-- C8.  TextBox/PasswBox preprocessing: when the value parameter is
present with a first value `v` (possibly `""`), the text becomes `v`;
when the parameter is absent the text is unchanged. -/
theorem textBox_preprocess_present_absent :
    (∀ text v vs, textBoxPreprocessEvent text (some (v :: vs)) = v) ∧
    (∀ text, textBoxPreprocessEvent text none = text) := by
  constructor
  · intro text v vs
    unfold textBoxPreprocessEvent
    by_cases hv : 0 < (formValue (some (v :: vs))).length
    · simp [hv, formValue]
    · simp [hv]
  · intro text
    rfl

theorem setSelected_comps (p : TabPanelState) (idx : Int) :
    (p.SetSelected idx).comps = p.comps := by
  unfold TabPanelState.SetSelected
  split <;> rfl

theorem setSelected_sel (p : TabPanelState) (idx : Int) :
    (p.SetSelected idx).selected =
      if (p.comps.length : Int) ≤ idx then p.selected else idx := by
  unfold TabPanelState.SetSelected
  by_cases h : (p.comps.length : Int) ≤ idx <;> simp [h]

theorem modifyAt_cons_succ (a : TabComp) (l : List TabComp) (n : Nat)
    (f : TabComp → TabComp) :
    modifyAt (a :: l) (n + 1) f = a :: modifyAt l n f := by
  unfold modifyAt
  cases h : l[n]? <;> simp [h]

theorem modifyAt_map_id (l : List TabComp) (i : Nat) (f : TabComp → TabComp)
    (hf : ∀ t, (f t).id = t.id) :
    (modifyAt l i f).map TabComp.id = l.map TabComp.id := by
  induction l generalizing i with
  | nil => rfl
  | cons a l ih =>
    cases i with
    | zero => simp [modifyAt, hf]
    | succ n =>
      rw [modifyAt_cons_succ]
      simp [ih]

theorem modifyAt_length (l : List TabComp) (i : Nat) (f : TabComp → TabComp) :
    (modifyAt l i f).length = l.length := by
  unfold modifyAt
  cases h : l[i]? <;> simp

theorem addClass_id (t : TabComp) (cls : String) : (t.addClass cls).id = t.id := by
  unfold TabComp.addClass
  split <;> rfl

theorem removeClass_id (t : TabComp) (cls : String) : (t.removeClass cls).id = t.id :=
  rfl

theorem modifyAt_restyle_ids (l : List TabComp) (i : Nat) (c1 c2 : String) :
    (modifyAt l i (fun t => (t.removeClass c1).addClass c2)).map TabComp.id =
      l.map TabComp.id :=
  modifyAt_map_id l i _ (fun t => by rw [addClass_id, removeClass_id])

theorem setSelected_tabBar_ids (p : TabPanelState) (idx : Int) :
    (p.SetSelected idx).tabBar.map TabComp.id = p.tabBar.map TabComp.id := by
  unfold TabPanelState.SetSelected
  split
  · rfl
  · simp only
    split <;> split <;> simp only [modifyAt_restyle_ids]

theorem setSelected_idPairs (p : TabPanelState) (idx : Int) :
    idPairs (p.SetSelected idx) = idPairs p := by
  unfold idPairs
  rw [setSelected_tabBar_ids, setSelected_comps]

theorem setSelected_tabBar_length (p : TabPanelState) (idx : Int) :
    (p.SetSelected idx).tabBar.length = p.tabBar.length := by
  have h := setSelected_tabBar_ids p idx
  have h1 := congrArg List.length h
  simpa using h1

theorem pairsInv_setSelected (p : TabPanelState) (P : List (Nat × Nat)) (idx : Int)
    (h : pairsInv p P) : pairsInv (p.SetSelected idx) P := by
  obtain ⟨hlen, hmem⟩ := h
  refine ⟨?_, ?_⟩
  · rw [setSelected_tabBar_length, setSelected_comps, hlen]
  · intro q hq
    rw [setSelected_idPairs] at hq
    exact hmem q hq

theorem pairsInv_add (p : TabPanelState) (P : List (Nat × Nat)) (tab : TabComp)
    (content : Nat) (h : pairsInv p P) (hm : (tab.id, content) ∈ P) :
    pairsInv (p.Add tab content) P := by
  obtain ⟨hlen, hmem⟩ := h
  have hlen1 : (p.tabBar.map TabComp.id).length = p.comps.length := by
    simpa using hlen
  have h1 : pairsInv
      ⟨p.tabBar ++ [tab.addClass "gwu-TabBar-NotSelected"], p.comps ++ [content],
        p.selected⟩ P := by
    refine ⟨by simpa using hlen, ?_⟩
    intro q hq
    unfold idPairs at hq
    simp only [List.map_append] at hq
    rw [List.zip_append (by simpa using hlen1)] at hq
    rcases List.mem_append.mp hq with hq1 | hq2
    · exact hmem q hq1
    · simp [addClass_id] at hq2
      rw [hq2]
      exact hm
  simp only [TabPanelState.Add]
  split
  · exact pairsInv_setSelected _ _ _ h1
  · exact h1

theorem map_id_eraseIdx (l : List TabComp) (i : Nat) :
    (l.eraseIdx i).map TabComp.id = (l.map TabComp.id).eraseIdx i := by
  induction l generalizing i with
  | nil => rfl
  | cons a l ih =>
    cases i with
    | zero => rfl
    | succ n => simp [List.eraseIdx_cons_succ, ih]

theorem zip_eraseIdx (l m : List Nat) (i : Nat) (h : l.length = m.length) :
    (l.eraseIdx i).zip (m.eraseIdx i) = (l.zip m).eraseIdx i := by
  induction l generalizing m i with
  | nil => rfl
  | cons a l ih =>
    cases m with
    | nil => simp at h
    | cons b m =>
      cases i with
      | zero => rfl
      | succ n =>
        simp only [List.eraseIdx_cons_succ, List.zip_cons_cons]
        rw [ih m n (by simpa using h)]

theorem removeIdx_idPairs (p : TabPanelState) (i : Nat)
    (hlen : p.tabBar.length = p.comps.length) :
    idPairs (p.removeIdx i) = (idPairs p).eraseIdx i ∧
    (p.removeIdx i).tabBar.length = (p.removeIdx i).comps.length := by
  have hpairs : idPairs ⟨p.tabBar.eraseIdx i, p.comps.eraseIdx i, p.selected⟩ =
      (idPairs p).eraseIdx i := by
    unfold idPairs
    simp only
    rw [map_id_eraseIdx, zip_eraseIdx _ _ _ (by simpa using hlen)]
  have hlens : (p.tabBar.eraseIdx i).length = (p.comps.eraseIdx i).length := by
    rw [List.length_eraseIdx, List.length_eraseIdx, hlen]
  simp only [TabPanelState.removeIdx]
  split
  · exact ⟨hpairs, hlens⟩
  · split
    · split
      · rw [setSelected_idPairs, setSelected_tabBar_length, setSelected_comps]
        exact ⟨hpairs, hlens⟩
      · split
        · rw [setSelected_idPairs, setSelected_tabBar_length, setSelected_comps]
          exact ⟨hpairs, hlens⟩
        · rw [setSelected_idPairs, setSelected_tabBar_length, setSelected_comps]
          exact ⟨hpairs, hlens⟩
    · exact ⟨hpairs, hlens⟩

theorem pairsInv_removeIdx (p : TabPanelState) (P : List (Nat × Nat)) (i : Nat)
    (h : pairsInv p P) : pairsInv (p.removeIdx i) P := by
  obtain ⟨hlen, hmem⟩ := h
  obtain ⟨hpairs, hlens⟩ := removeIdx_idPairs p i hlen
  refine ⟨hlens, ?_⟩
  intro q hq
  rw [hpairs] at hq
  exact hmem q ((List.eraseIdx_sublist _ i).subset hq)

theorem pairsInv_remove (p : TabPanelState) (P : List (Nat × Nat)) (c2 : Nat)
    (h : pairsInv p P) : pairsInv (p.Remove c2).1 P := by
  unfold TabPanelState.Remove
  cases h1 : p.comps.findIdx? (· == c2) with
  | some i => exact pairsInv_removeIdx p P i h
  | none =>
    simp only
    cases h2 : p.tabBar.findIdx? (fun t => t.id == c2) with
    | none => exact h
    | some i =>
      simp only
      cases h3 : p.comps[i]? with
      | none => exact h
      | some content =>
        simp only
        cases h4 : p.comps.findIdx? (· == content) with
        | some j => exact pairsInv_removeIdx p P j h
        | none => exact h

theorem pairsInv_clear (p : TabPanelState) (P : List (Nat × Nat)) :
    pairsInv p.Clear P := by
  unfold TabPanelState.Clear
  apply pairsInv_setSelected
  exact ⟨rfl, fun q hq => absurd hq (by simp [idPairs])⟩

theorem runTabOps_pairsInv (p : TabPanelState) (ops : List TabOp)
    (P : List (Nat × Nat)) (hp : pairsInv p P)
    (hops : ∀ q ∈ addedPairs ops, q ∈ P) : pairsInv (runTabOps p ops) P := by
  induction ops generalizing p with
  | nil => exact hp
  | cons op rest ih =>
    rw [show runTabOps p (op :: rest) = runTabOps (applyTabOp p op) rest from rfl]
    apply ih
    · cases op with
      | add tab content =>
        exact pairsInv_add _ _ _ _ hp (hops _ (by simp [addedPairs]))
      | rem c2 => exact pairsInv_remove _ _ _ hp
      | clear => exact pairsInv_clear _ _
    · intro q hq
      apply hops
      cases op <;> simp [addedPairs, List.filterMap_cons] at hq ⊢ <;> tauto

/-- C4.  After every sequence of public `Add`/`Remove`/`Clear`
operations on a fresh TabPanel, the tab bar and the content list have
equal length, and each position holds a (tab, content) pair that was
added together by some `Add` (so a pair's tab sits at the same index in
the tab bar as its content does in the content list).  Any prefix of an
operation sequence being a sequence, this holds after each operation. -/
theorem tabPanel_pairs_aligned (ops : List TabOp) :
    (runTabOps initTabPanel ops).tabBar.length =
      (runTabOps initTabPanel ops).comps.length ∧
    ∀ q ∈ idPairs (runTabOps initTabPanel ops), q ∈ addedPairs ops :=
  runTabOps_pairsInv initTabPanel ops (addedPairs ops)
    ⟨rfl, fun q hq => absurd hq (by simp [idPairs, initTabPanel])⟩
    (fun _ hq => hq)

/-- Witness for C4: one `Add` of tab id 5 with content id 7. -/
theorem tabPanel_pairs_aligned_witness :
    (runTabOps initTabPanel [TabOp.add ⟨5, []⟩ 7]).tabBar.length =
      (runTabOps initTabPanel [TabOp.add ⟨5, []⟩ 7]).comps.length ∧
    (5, 7) ∈ addedPairs [TabOp.add ⟨5, []⟩ 7] :=
  ⟨(tabPanel_pairs_aligned [TabOp.add ⟨5, []⟩ 7]).1,
   (tabPanel_pairs_aligned [TabOp.add ⟨5, []⟩ 7]).2 (5, 7) (by decide)⟩

/-- C2.  Removing the pair at index `i` adjusts the selected index:
below the selection it decrements it by one; at the selection it selects
the tab now at `i` when one exists, else the new last tab `i - 1`, else
none (`-1`); above the selection it leaves it unchanged. -/
theorem remove_adjusts_selected (p : TabPanelState) (i : Nat)
    (hi : i < p.comps.length) :
    (p.removeIdx i).selected =
      if (i : Int) < p.selected then p.selected - 1
      else if (i : Int) = p.selected then
        (if (i : Int) < (p.comps.length : Int) - 1 then (i : Int)
         else if 0 < i then (i : Int) - 1
         else -1)
      else p.selected := by
  have hlen : ((p.comps.eraseIdx i).length : Int) = (p.comps.length : Int) - 1 := by
    rw [List.length_eraseIdx_of_lt hi]
    omega
  simp only [TabPanelState.removeIdx, apply_ite TabPanelState.selected, setSelected_sel]
  split_ifs <;> omega

/-- Witness for C2: removing index 0 of three pairs with selection 1
decrements the selection to 0. -/
theorem remove_adjusts_selected_witness :
    ((⟨[⟨1, []⟩, ⟨2, []⟩, ⟨3, []⟩], [11, 12, 13], 1⟩ : TabPanelState).removeIdx 0).selected
      = 0 :=
  (remove_adjusts_selected ⟨[⟨1, []⟩, ⟨2, []⟩, ⟨3, []⟩], [11, 12, 13], 1⟩ 0
    (by decide)).trans (by decide)

/-- C3 (divergence witness): `SetSelected` stores a negative index
verbatim instead of normalizing it to `-1`.  On a panel with one pair,
`SetSelected(-5)` deselects but leaves `Selected()` returning `-5`,
contradicting `Selected`'s documented "-1 if no tab is selected"
(tabpanel.go:109-111) and the claim. -/
theorem setSelected_negative_keeps_raw_index :
    ((initTabPanel.Add ⟨1, []⟩ 2).SetSelected (-5)).selected = -5 ∧
    ((initTabPanel.Add ⟨1, []⟩ 2).SetSelected (-5)).selected ≠ -1 := by
  decide

/-- C10.  On an index-aligned TabPanel with distinct content ids,
removing tab `t` through the tab bar removes the pair at `t`'s index
with the very same index adjustment as the panel's `Remove`
(`removeIdx`) and returns `true`; removing a component not in the bar
returns `false` and changes nothing. -/
theorem tabBar_remove_pair (p : TabPanelState) (t : Nat)
    (hlen : p.tabBar.length = p.comps.length) (hnd : p.comps.Nodup) :
    (∀ i, p.tabBar.findIdx? (fun tb => tb.id == t) = some i →
      p.tabBarRemove t = (p.removeIdx i, true)) ∧
    (p.tabBar.findIdx? (fun tb => tb.id == t) = none →
      p.tabBarRemove t = (p, false)) := by
  constructor
  · intro i hfind
    unfold TabPanelState.tabBarRemove
    rw [hfind]
    dsimp only
    obtain ⟨hilt, _, _⟩ := List.findIdx?_eq_some_iff_getElem.mp hfind
    have hic : i < p.comps.length := hlen ▸ hilt
    obtain ⟨content, hgetc⟩ : ∃ content, p.comps[i]? = some content :=
      ⟨_, List.getElem?_eq_getElem hic⟩
    rw [hgetc]
    dsimp only
    unfold TabPanelState.Remove
    cases hfc : p.comps.findIdx? (· == content) with
    | none =>
      rw [List.findIdx?_eq_none_iff] at hfc
      have := hfc content (List.getElem?_mem hgetc)
      simp at this
    | some j =>
      obtain ⟨hjlt, hjeq, _⟩ := List.findIdx?_eq_some_iff_getElem.mp hfc
      have hj2 : p.comps[j]? = some content := by
        rw [List.getElem?_eq_getElem hjlt]
        simpa using hjeq
      have hij : j = i := List.getElem?_inj hjlt hnd (by rw [hj2, hgetc])
      rw [hij]
  · intro hfind
    unfold TabPanelState.tabBarRemove
    rw [hfind]

/-- Witness for C10: removing tab id 2 of two pairs erases index 1. -/
theorem tabBar_remove_pair_witness :
    (⟨[⟨1, []⟩, ⟨2, []⟩], [11, 12], 0⟩ : TabPanelState).tabBarRemove 2 =
      ((⟨[⟨1, []⟩, ⟨2, []⟩], [11, 12], 0⟩ : TabPanelState).removeIdx 1, true) :=
  (tabBar_remove_pair ⟨[⟨1, []⟩, ⟨2, []⟩], [11, 12], 0⟩ 2 (by decide) (by decide)).1
    1 (by decide)

end Gowut
